import Mathlib

/-!
Shallow embedding of the expense ledger of src/bot.py (class ChatData and its
methods).  Python dicts are modelled as insertion ordered association lists
with unique keys: get with default, membership test, in-place value update
(appending fresh keys at the end) and deletion all follow dict semantics.
A Python frozenset key is modelled by the list from which it was built,
with dict key comparison by set equality (equal toFinset), exactly the
frozenset equality Python uses for dict keys; like a Python dict, an update
at a set-equal key keeps the first stored key.  Where the source iterates
over a frozenset (whose iteration order CPython leaves unspecified but
fixed), the model iterates over the distinct elements of the stored list in
dedup order, and len of the frozenset is the number of distinct elements.
Amounts are modelled as rationals, i.e. exact arithmetic in place of IEEE
doubles; for the claim about non finite amounts a dedicated value type
PyFloat carrying the IEEE special values is used, which is exact on the
special values themselves.
-/

namespace SplitLater

section AList

variable {κ : Type} {α : Type} [DecidableEq κ]

/-- Python d.get(k, default): value at the first matching key, else the default. -/
def lookupD : List (κ × α) → κ → α → α
  | [], _, d => d
  | (k, v) :: rest, k0, d => if k = k0 then v else lookupD rest k0 d

/-- Python dict indexing as an Option: some value when the key is present. -/
def lookup? : List (κ × α) → κ → Option α
  | [], _ => none
  | (k, v) :: rest, k0 => if k = k0 then some v else lookup? rest k0

/-- Python d[k] = v: replace the value in place when the key is present
(keeping the original key object and position), else append a new entry. -/
def setK : List (κ × α) → κ → α → List (κ × α)
  | [], k0, v0 => [(k0, v0)]
  | (k, v) :: rest, k0, v0 =>
    if k = k0 then (k, v0) :: rest else (k, v) :: setK rest k0 v0

/-- Python del d[k]: drop the entry of the key. -/
def eraseK : List (κ × α) → κ → List (κ × α)
  | [], _ => []
  | (k, v) :: rest, k0 => if k = k0 then rest else (k, v) :: eraseK rest k0

/-- Python k in d. -/
def containsK (l : List (κ × α)) (k : κ) : Bool :=
  (lookup? l k).isSome

/-- get with default on a dict keyed by frozensets: keys are the stored
lists, compared by set equality. -/
def lookupFD : List (List String × α) → List String → α → α
  | [], _, d => d
  | (k, v) :: rest, k0, d =>
    if k.toFinset = k0.toFinset then v else lookupFD rest k0 d

/-- update on a dict keyed by frozensets: value replaced in place at a
set-equal key (the first stored key is kept, as Python keeps the first
inserted frozenset object), else a new entry is appended. -/
def setFD : List (List String × α) → List String → α → List (List String × α)
  | [], k0, v0 => [(k0, v0)]
  | (k, v) :: rest, k0, v0 =>
    if k.toFinset = k0.toFinset then (k, v0) :: rest
    else (k, v) :: setFD rest k0 v0

end AList

/-- The ledger state: the fields assigned in ChatData.__init__ (src/bot.py
lines 15-19).  users is the participant list, logs the log lines,
expenditure the equal-contribution dict and shared_expenditure the dict
mapping a payer to a dict from frozensets of sharers to amounts.  The value
type is a parameter because Python is dynamically typed: the proofs
instantiate it with the rationals and, for the finiteness claim, with
PyFloat. -/
structure ChatData (α : Type) where
  users : List String
  logs : List String
  expenditure : List (String × α)
  shared_expenditure : List (String × List (List String × α))

/-- ChatData.__init__: every field empty. -/
def ChatData.empty {α : Type} : ChatData α :=
  ⟨[], [], [], []⟩

/-- ChatData.clear (src/bot.py lines 21-25): clears every field. -/
def ChatData.clear {α : Type} (_cd : ChatData α) : ChatData α :=
  ⟨[], [], [], []⟩

/-- ChatData.include (src/bot.py lines 27-30): replaces self.users with the
given list and sets self.expenditure[user] = 0.0 for every listed user.
Named includeUsers because include is a Lean keyword. -/
def ChatData.includeUsers {α : Type} [Zero α] (cd : ChatData α)
    (users : List String) : ChatData α :=
  { cd with
    users := users,
    expenditure := users.foldl (fun e user => setK e user 0) cd.expenditure }

/-- ChatData.update_expenditure (src/bot.py lines 32-40).  With others = None
it accumulates into self.expenditure via get(key, 0); otherwise it fetches
the inner dict of the payer (default empty), accumulates at the key
frozenset(others) and stores the inner dict back. -/
def ChatData.update_expenditure {α : Type} [Zero α] [Add α] (cd : ChatData α)
    (key : String) (value : α) (others : Option (List String)) : ChatData α :=
  match others with
  | none =>
      { cd with
        expenditure := setK cd.expenditure key (lookupD cd.expenditure key 0 + value) }
  | some os =>
      let dvd := lookupD cd.shared_expenditure key []
      let dvd := setFD dvd os (lookupFD dvd os 0 + value)
      { cd with shared_expenditure := setK cd.shared_expenditure key dvd }

/-- ChatData.avg_expenditure (src/bot.py lines 48-54): total over count; the
ZeroDivisionError branch (empty dict) returns 0. -/
def ChatData.avg_expenditure (cd : ChatData ℚ) : ℚ :=
  if cd.expenditure.length = 0 then 0
  else (cd.expenditure.map Prod.snd).sum / (cd.expenditure.length : ℚ)

/-- ChatData.remove (src/bot.py lines 56-61): delete the key from
self.expenditure when present, and from self.shared_expenditure when
present. -/
def ChatData.remove {α : Type} (cd : ChatData α) (key : String) : ChatData α :=
  { cd with
    expenditure :=
      if containsK cd.expenditure key then eraseK cd.expenditure key
      else cd.expenditure,
    shared_expenditure :=
      if containsK cd.shared_expenditure key then eraseK cd.shared_expenditure key
      else cd.shared_expenditure }

/-- Steps 1-3 of ChatData.resolve_expenses (src/bot.py lines 64-77): the
debts dict after subtracting the average from every expenditure entry and
folding in every shared_expenditure entry, where for each inner entry the
share value/(len(debtors)+1) is added to the payer balance and subtracted
from the balance of each distinct sharer (get with default 0). -/
def ChatData.debtsAfterShared (cd : ChatData ℚ) : List (String × ℚ) :=
  let avg := cd.avg_expenditure
  let debts := cd.expenditure.map (fun pe => (pe.1, pe.2 - avg))
  cd.shared_expenditure.foldl
    (fun debts ce =>
      ce.2.foldl
        (fun debts dv =>
          let share := dv.2 / ((dv.1.dedup.length : ℚ) + 1)
          let debts := setK debts ce.1 (lookupD debts ce.1 0 + share)
          dv.1.dedup.foldl
            (fun debts debtor => setK debts debtor (lookupD debts debtor 0 - share))
            debts)
        debts)
    debts

/-- The inner creditor loop of resolve_expenses for one debtor (src/bot.py
lines 85-99).  In the source, debtor_amount is the loop variable bound when
the outer loop yielded this debtor: the later statement
debtors[debtor] += transfer_amount mutates the dict but never this variable,
so the break test compares the stale original balance d0 and the transfer is
min(-d0, creditor_amount).  The dict mutation of the debtor entry is
mirrored by the acc argument, which like the source is written and never
read.  Returns the updated creditors list, the final accumulated debtor
value and the appended transactions in order. -/
def settlePass (debtor : String) (d0 : ℚ) :
    List (String × ℚ) → ℚ → List (String × ℚ) × ℚ × List (String × String × ℚ)
  | [], acc => ([], acc, [])
  | (c, ca) :: rest, acc =>
    if d0 = 0 then ((c, ca) :: rest, acc, [])
    else if ca = 0 then
      let r := settlePass debtor d0 rest acc
      ((c, ca) :: r.1, r.2.1, r.2.2)
    else
      let t := min (-d0) ca
      let r := settlePass debtor d0 rest (acc + t)
      ((c, ca - t) :: r.1, r.2.1, (debtor, c, t) :: r.2.2)

/-- The outer debtor loop of resolve_expenses (src/bot.py lines 84-99).
The outer dict iteration yields the original (person, balance) pairs:
the only mutation of the debtors dict touches the debtor currently being
processed, after it has been yielded.  The creditors dict is threaded from
one pass to the next. -/
def settleAll : List (String × ℚ) → List (String × ℚ) → List (String × String × ℚ)
  | [], _ => []
  | (d, da) :: ds, creds =>
    let r := settlePass d da creds da
    r.2.2 ++ settleAll ds r.1

/-- ChatData.resolve_expenses (src/bot.py lines 64-101): partition the debts
into creditors (balance > 0) and debtors (balance < 0), in insertion order,
then run the greedy matching loop and return the transaction list. -/
def ChatData.resolve_expenses (cd : ChatData ℚ) : List (String × String × ℚ) :=
  let debts := cd.debtsAfterShared
  let creditors := debts.filter (fun pe => 0 < pe.2)
  let debtors := debts.filter (fun pe => pe.2 < 0)
  settleAll debtors creditors

/-- The chat commands that mutate or read one ledger, as dispatched by the
handlers of src/bot.py; res is the /resolve command. -/
inductive Cmd : Type
  | inc : List String → Cmd
  | add : String → ℚ → Option (List String) → Cmd
  | rem : String → Cmd
  | clr : Cmd
  | res : Cmd

/-- One command step on a ledger: the post state of self together with the
produced transaction list (empty for the mutating commands).  The res arm is
translated from resolve_expenses, which reads self.expenditure and
self.shared_expenditure but assigns no field of self, so the post state is
the input state. -/
def execCmd (cd : ChatData ℚ) : Cmd → ChatData ℚ × List (String × String × ℚ)
  | .inc l => (cd.includeUsers l, [])
  | .add k v o => (cd.update_expenditure k v o, [])
  | .rem k => (cd.remove k, [])
  | .clr => (cd.clear, [])
  | .res => (cd, cd.resolve_expenses)

/-- Python float values: a finite rational or one of the IEEE special
values.  Addition on the special values is exact in IEEE arithmetic and is
modelled exactly; finite plus finite abstracts from rounding. -/
inductive PyFloat : Type
  | finite : ℚ → PyFloat
  | inf : PyFloat
  | ninf : PyFloat
  | nan : PyFloat
deriving DecidableEq

/-- IEEE addition on PyFloat: nan absorbs, opposite infinities give nan,
an infinity absorbs finite values. -/
def PyFloat.add : PyFloat → PyFloat → PyFloat
  | nan, _ => nan
  | _, nan => nan
  | inf, ninf => nan
  | ninf, inf => nan
  | inf, _ => inf
  | _, inf => inf
  | ninf, _ => ninf
  | _, ninf => ninf
  | finite a, finite b => finite (a + b)

instance : Add PyFloat := ⟨PyFloat.add⟩

instance : Zero PyFloat := ⟨PyFloat.finite 0⟩

/-- Ledger reached by include [A,B,C,D]; add_equal A 22; add_equal B 18. -/
def stateC1 : ChatData ℚ :=
  ((ChatData.empty.includeUsers ["A", "B", "C", "D"]).update_expenditure
      "A" 22 none).update_expenditure "B" 18 none

/-- Ledger reached by one call add_shared A 3 [B, C] on a fresh ledger. -/
def stateC2 : ChatData ℚ :=
  ChatData.empty.update_expenditure "A" 3 (some ["B", "C"])

/-- Ledger reached by include [A,B,C,D]; add_equal A 4; add_equal C 8;
add_equal D 8. -/
def stateC3 : ChatData ℚ :=
  (((ChatData.empty.includeUsers ["A", "B", "C", "D"]).update_expenditure
        "A" 4 none).update_expenditure "C" 8 none).update_expenditure "D" 8 none

/-- Ledger reached by include [A,B]; add_equal A 30. -/
def stateC9 : ChatData ℚ :=
  (ChatData.empty.includeUsers ["A", "B"]).update_expenditure "A" 30 none

/-- A ledger with two participants, two equal entries and one shared entry
per payer; the sharer set of payer B contains A. -/
def stateC10 : ChatData ℚ :=
  ⟨["A", "B"], [], [("A", 5), ("B", 7)],
    [("A", [(["B"], 3)]), ("B", [(["A", "C"], 4)])]⟩

section DictLemmas

variable {κ : Type} {α : Type} [DecidableEq κ]

theorem lookupD_setK_self (l : List (κ × α)) (k : κ) (v d : α) :
    lookupD (setK l k v) k d = v := by
  induction l with
  | nil => simp [setK, lookupD]
  | cons hd tl ih =>
    obtain ⟨a, b⟩ := hd
    by_cases hak : a = k
    · simp [setK, lookupD, if_pos hak, hak]
    · simp [setK, lookupD, if_neg hak, hak, ih]

theorem lookup?_setK_self (l : List (κ × α)) (k : κ) (v : α) :
    lookup? (setK l k v) k = some v := by
  induction l with
  | nil => simp [setK, lookup?]
  | cons hd tl ih =>
    obtain ⟨a, b⟩ := hd
    by_cases hak : a = k
    · simp [setK, lookup?, if_pos hak, hak]
    · simp [setK, lookup?, if_neg hak, hak, ih]

theorem lookup?_setK_ne (l : List (κ × α)) (k : κ) (v : α) (q : κ) (hq : q ≠ k) :
    lookup? (setK l k v) q = lookup? l q := by
  induction l with
  | nil =>
    simp only [setK, lookup?]
    rw [if_neg (fun h => hq h.symm)]
  | cons hd tl ih =>
    obtain ⟨a, b⟩ := hd
    by_cases hak : a = k
    · simp only [setK, if_pos hak, lookup?]
      rw [if_neg (fun h => hq (h.symm.trans hak)), if_neg (fun h => hq (h.symm.trans hak))]
    · simp only [setK, if_neg hak, lookup?]
      by_cases haq : a = q
      · rw [if_pos haq, if_pos haq]
      · rw [if_neg haq, if_neg haq, ih]

theorem lookup?_eq_none_of_not_mem_keys (l : List (κ × α)) (k : κ)
    (hk : k ∉ l.map Prod.fst) : lookup? l k = none := by
  induction l with
  | nil => rfl
  | cons hd tl ih =>
    obtain ⟨a, b⟩ := hd
    simp only [List.map_cons, List.mem_cons, not_or] at hk
    simp only [lookup?]
    rw [if_neg (fun h => hk.1 h.symm)]
    exact ih hk.2

theorem lookup?_eraseK_self (l : List (κ × α)) (k : κ)
    (h : (l.map Prod.fst).Nodup) : lookup? (eraseK l k) k = none := by
  induction l with
  | nil => rfl
  | cons hd tl ih =>
    obtain ⟨a, b⟩ := hd
    simp only [List.map_cons, List.nodup_cons] at h
    by_cases hak : a = k
    · simp only [eraseK, if_pos hak]
      subst hak
      exact lookup?_eq_none_of_not_mem_keys tl a h.1
    · simp only [eraseK, if_neg hak, lookup?]
      exact ih h.2

theorem lookup?_eraseK_ne (l : List (κ × α)) (k q : κ) (hq : q ≠ k) :
    lookup? (eraseK l k) q = lookup? l q := by
  induction l with
  | nil => rfl
  | cons hd tl ih =>
    obtain ⟨a, b⟩ := hd
    by_cases hak : a = k
    · simp only [eraseK, if_pos hak, lookup?]
      rw [if_neg (fun h => hq (h.symm.trans hak))]
    · simp only [eraseK, if_neg hak, lookup?]
      by_cases haq : a = q
      · rw [if_pos haq, if_pos haq]
      · rw [if_neg haq, if_neg haq, ih]

theorem lookup?_of_containsK_false (l : List (κ × α)) (k : κ)
    (hc : ¬ containsK l k = true) : lookup? l k = none := by
  rcases h2 : lookup? l k with _ | v
  · rfl
  · exact absurd (by simp [containsK, h2]) hc

theorem removeDict_self_none (l : List (κ × α)) (k : κ)
    (h : (l.map Prod.fst).Nodup) :
    lookup? (if containsK l k then eraseK l k else l) k = none := by
  by_cases hc : containsK l k
  · rw [if_pos hc]
    exact lookup?_eraseK_self l k h
  · rw [if_neg hc]
    exact lookup?_of_containsK_false l k hc

theorem removeDict_frame (l : List (κ × α)) (k q : κ) (hq : q ≠ k) :
    lookup? (if containsK l k then eraseK l k else l) q = lookup? l q := by
  by_cases hc : containsK l k
  · rw [if_pos hc]
    exact lookup?_eraseK_ne l k q hq
  · rw [if_neg hc]

end DictLemmas

section FrozenDictLemmas

variable {α : Type}

theorem lookupFD_setFD_congr (l : List (List String × α)) (k1 k2 : List String)
    (v d : α) (h : k1.toFinset = k2.toFinset) :
    lookupFD (setFD l k2 v) k1 d = v := by
  induction l with
  | nil =>
    simp only [setFD, lookupFD]
    rw [if_pos h.symm]
  | cons hd tl ih =>
    obtain ⟨a, b⟩ := hd
    by_cases hak : a.toFinset = k2.toFinset
    · simp only [setFD, if_pos hak, lookupFD]
      rw [if_pos (hak.trans h.symm)]
    · simp only [setFD, if_neg hak, lookupFD]
      rw [if_neg (fun hh => hak (hh.trans h)), ih]

theorem length_setFD_setFD (l : List (List String × α)) (k1 k2 : List String)
    (v1 v2 : α) (h : k1.toFinset = k2.toFinset) :
    (setFD (setFD l k1 v1) k2 v2).length = (setFD l k1 v1).length := by
  induction l with
  | nil =>
    simp only [setFD]
    rw [if_pos h]
    rfl
  | cons hd tl ih =>
    obtain ⟨a, b⟩ := hd
    by_cases h1 : a.toFinset = k1.toFinset
    · simp only [setFD, if_pos h1, if_pos (h1.trans h), List.length_cons]
    · have h2 : ¬ a.toFinset = k2.toFinset := fun hh => h1 (hh.trans h.symm)
      simp only [setFD, if_neg h1, if_neg h2, List.length_cons]
      rw [ih]

end FrozenDictLemmas

section FoldSetZeroLemmas

variable {α : Type} [Zero α]

theorem lookup?_foldlSetZero_not_mem (S : List String)
    (init : List (String × α)) (k : String) (hk : k ∉ S) :
    lookup? (S.foldl (fun e user => setK e user 0) init) k = lookup? init k := by
  induction S generalizing init with
  | nil => rfl
  | cons a rest ih =>
    have h1 : k ≠ a := fun h => hk (h ▸ List.mem_cons_self a rest)
    have h2 : k ∉ rest := fun h => hk (List.mem_cons_of_mem _ h)
    simp only [List.foldl_cons]
    rw [ih _ h2, lookup?_setK_ne _ _ _ _ h1]

theorem lookup?_foldlSetZero_mem (S : List String)
    (init : List (String × α)) (u : String) (hu : u ∈ S) :
    lookup? (S.foldl (fun e user => setK e user 0) init) u = some 0 := by
  induction S generalizing init with
  | nil => cases hu
  | cons a rest ih =>
    simp only [List.foldl_cons]
    by_cases hur : u ∈ rest
    · exact ih _ hur
    · have hua : u = a := by
        rcases List.mem_cons.mp hu with h | h
        · exact h
        · exact absurd h hur
      subst hua
      rw [lookup?_foldlSetZero_not_mem rest _ u hur, lookup?_setK_self]

end FoldSetZeroLemmas

theorem settlePass_invariant (debtor : String) (d0 : ℚ) (hneg : d0 < 0)
    (creds : List (String × ℚ)) (acc : ℚ) (h : ∀ x ∈ creds, 0 ≤ x.2) :
    (∀ x ∈ (settlePass debtor d0 creds acc).1, 0 ≤ x.2) ∧
    ∀ t ∈ (settlePass debtor d0 creds acc).2.2, 0 < t.2.2 := by
  induction creds generalizing acc with
  | nil =>
    constructor
    · intro x hx; cases hx
    · intro t ht; cases ht
  | cons hd tl ih =>
    obtain ⟨c, ca⟩ := hd
    have hne : ¬ d0 = 0 := ne_of_lt hneg
    have hca0 : 0 ≤ ca := h (c, ca) (List.mem_cons_self _ _)
    have htl : ∀ x ∈ tl, 0 ≤ x.2 := fun x hx => h x (List.mem_cons_of_mem _ hx)
    by_cases hca : ca = 0
    · obtain ⟨ih1, ih2⟩ := ih acc htl
      simp only [settlePass, if_neg hne, if_pos hca]
      constructor
      · intro x hx
        rcases List.mem_cons.mp hx with h1 | h1
        · rw [h1]; exact hca0
        · exact ih1 x h1
      · exact ih2
    · obtain ⟨ih1, ih2⟩ := ih (acc + min (-d0) ca) htl
      have htpos : 0 < min (-d0) ca :=
        lt_min (neg_pos.mpr hneg) (lt_of_le_of_ne hca0 (Ne.symm hca))
      simp only [settlePass, if_neg hne, if_neg hca]
      constructor
      · intro x hx
        rcases List.mem_cons.mp hx with h1 | h1
        · rw [h1]
          exact sub_nonneg.mpr (min_le_right _ _)
        · exact ih1 x h1
      · intro t ht
        rcases List.mem_cons.mp ht with h1 | h1
        · rw [h1]; exact htpos
        · exact ih2 t h1

theorem settleAll_amounts_pos (debtors creds : List (String × ℚ))
    (hd : ∀ x ∈ debtors, x.2 < 0) (hc : ∀ x ∈ creds, 0 ≤ x.2) :
    ∀ t ∈ settleAll debtors creds, 0 < t.2.2 := by
  induction debtors generalizing creds with
  | nil => intro t ht; cases ht
  | cons d ds ih =>
    intro t ht
    obtain ⟨nm, da⟩ := d
    have hda : da < 0 := hd (nm, da) (List.mem_cons_self _ _)
    obtain ⟨hcre, htx⟩ := settlePass_invariant nm da hda creds da hc
    simp only [settleAll] at ht
    rcases List.mem_append.mp ht with h1 | h1
    · exact htx t h1
    · exact ih _ (fun x hx => hd x (List.mem_cons_of_mem _ hx)) hcre t h1

/-- C1: the claim says every debtor pays exactly the absolute value of its
initial negative balance.  On the ledger stateC1 (include [A,B,C,D];
add_equal A 22; add_equal B 18) debtor C has balance -10 after steps 2-3,
yet the transactions returned by resolve have C paying 10 to A and then 8
to B, 18 in total: the settled-debtor break of the source compares the
stale loop variable, so a settled debtor keeps paying every remaining
creditor. -/
theorem C1_eval :
    lookupD stateC1.debtsAfterShared "C" 0 = -10 ∧
    stateC1.resolve_expenses = [("C", "A", 10), ("C", "B", 8), ("D", "A", 2)] ∧
    (((stateC1.resolve_expenses.filter (fun t => t.1 = "C")).map
        (fun t => t.2.2)).sum = 18 ∧
      ¬ (((stateC1.resolve_expenses.filter (fun t => t.1 = "C")).map
          (fun t => t.2.2)).sum = 10)) := by
  with_unfolding_all decide

/-- C2: the claim says the balances after steps 2-3 sum to 0 for every
reachable ledger.  On stateC2 (a single call add_shared A 3 [B, C]) the
balances are A:1, B:-1, C:-1 and sum to -1: the source credits the payer a
single share value/(count+1) while debiting one share to each of the two
sharers. -/
theorem C2_eval :
    (stateC2.debtsAfterShared.map Prod.snd).sum = -1 ∧
    ¬ ((stateC2.debtsAfterShared.map Prod.snd).sum = 0) := by
  with_unfolding_all decide

/-- C3: the claim bounds the number of transactions by
debtors + creditors - 1.  On stateC3 (include [A,B,C,D]; add_equal A 4;
add_equal C 8; add_equal D 8) there are 2 debtors and 2 creditors after
steps 2-3, yet resolve returns 4 transactions, exceeding the claimed bound
of 3, because the stale settled-debtor check never fires and a settled
debtor keeps producing transactions. -/
theorem C3_eval :
    stateC3.resolve_expenses.length = 4 ∧
    (stateC3.debtsAfterShared.filter (fun pe => pe.2 < 0)).length = 2 ∧
    (stateC3.debtsAfterShared.filter (fun pe => 0 < pe.2)).length = 2 ∧
    ¬ (stateC3.resolve_expenses.length ≤
        (stateC3.debtsAfterShared.filter (fun pe => pe.2 < 0)).length +
          (stateC3.debtsAfterShared.filter (fun pe => 0 < pe.2)).length - 1) := by
  with_unfolding_all decide

/-- C4 counterexample: the claim says a participant with an accumulated
EqualContribution entry keeps its value across include.  After include [A];
add_equal A 5 the entry of A is 5, but a second include [A] resets it to 0:
the source assigns 0.0 unconditionally. -/
theorem C4_counterexample :
    lookup? ((ChatData.empty.includeUsers ["A"]).update_expenditure
        "A" (5 : ℚ) none).expenditure "A" = some 5 ∧
    lookup? (((ChatData.empty.includeUsers ["A"]).update_expenditure
        "A" (5 : ℚ) none).includeUsers ["A"]).expenditure "A" = some 0 := by
  with_unfolding_all decide

/-- C4 amended: include S replaces the participant list with S and
unconditionally sets the EqualContribution entry of every member of S to 0,
discarding any previously accumulated value; entries of keys outside S are
unchanged. -/
theorem C4_include_overwrites (cd : ChatData ℚ) (S : List String)
    (u k : String) (hu : u ∈ S) (hk : k ∉ S) :
    (cd.includeUsers S).users = S ∧
    lookup? (cd.includeUsers S).expenditure u = some 0 ∧
    lookup? (cd.includeUsers S).expenditure k = lookup? cd.expenditure k :=
  ⟨rfl, lookup?_foldlSetZero_mem S cd.expenditure u hu,
    lookup?_foldlSetZero_not_mem S cd.expenditure k hk⟩

/-- C4 witness: include [A] on a ledger holding an entry for B sets the
entry of A to 0 and leaves the entry of B untouched. -/
theorem C4_witness :
    ((ChatData.empty.update_expenditure "B" (7 : ℚ) none).includeUsers
        ["A"]).users = ["A"] ∧
    lookup? ((ChatData.empty.update_expenditure "B" (7 : ℚ) none).includeUsers
        ["A"]).expenditure "A" = some 0 ∧
    lookup? ((ChatData.empty.update_expenditure "B" (7 : ℚ) none).includeUsers
        ["A"]).expenditure "B" =
      lookup? (ChatData.empty.update_expenditure "B" (7 : ℚ) none).expenditure "B" :=
  C4_include_overwrites _ ["A"] "A" "B" (by decide) (by decide)

/-- C5 counterexample: the claim says a non finite amount is rejected with
the ledger left unmodified.  Passing the IEEE value inf to
update_expenditure on an empty ledger succeeds and stores an entry mapping
A to inf: the source performs no finiteness check. -/
theorem C5_counterexample :
    (ChatData.empty.update_expenditure "A" PyFloat.inf none).expenditure =
      [("A", PyFloat.inf)] ∧
    (ChatData.empty : ChatData PyFloat).expenditure = [] :=
  ⟨rfl, rfl⟩

/-- C5 amended: add_equal and add_shared perform no finiteness check: every
amount, finite or not, is accumulated (the stored value becomes old plus
amount) and the ledger is modified accordingly; no InvalidAmount failure
path exists. -/
theorem C5_no_finite_check (cd : ChatData PyFloat) (k : String) (v : PyFloat)
    (os : List String) :
    lookupD (cd.update_expenditure k v none).expenditure k 0 =
      lookupD cd.expenditure k 0 + v ∧
    lookupFD (lookupD (cd.update_expenditure k v (some os)).shared_expenditure
        k []) os 0 =
      lookupFD (lookupD cd.shared_expenditure k []) os 0 + v := by
  constructor
  · exact lookupD_setK_self cd.expenditure k _ 0
  · simp only [ChatData.update_expenditure, lookupD_setK_self]
    exact lookupFD_setFD_congr _ os os _ _ rfl

/-- C6 counterexample: the claim says add_shared with an empty sharer set
creates no SharedContribution entry.  A call with an empty sharer list on an
empty ledger creates the entry mapping payer A to the inner dict with the
empty frozenset as key and value 5. -/
theorem C6_counterexample :
    (ChatData.empty.update_expenditure "A" (5 : ℚ) (some [])).shared_expenditure =
      [("A", [([], (5 : ℚ))])] ∧
    (ChatData.empty.update_expenditure "A" (5 : ℚ) (some [])).expenditure = [] := by
  with_unfolding_all decide

/-- C6 amended: add_shared with an empty sharer set is not rejected: it
accumulates a SharedContribution entry keyed by (payer, empty set), and the
EqualContribution mapping is untouched (so it is indeed not treated as an
equal contribution). -/
theorem C6_empty_sharers_recorded (cd : ChatData ℚ) (p : String) (a : ℚ) :
    lookupFD (lookupD (cd.update_expenditure p a (some [])).shared_expenditure
        p []) [] 0 =
      lookupFD (lookupD cd.shared_expenditure p []) [] 0 + a ∧
    (cd.update_expenditure p a (some [])).expenditure = cd.expenditure := by
  constructor
  · simp only [ChatData.update_expenditure, lookupD_setK_self]
    exact lookupFD_setFD_congr _ [] [] _ _ rfl
  · rfl

/-- C7: two add_shared calls with the same payer and set-equal sharer lists
accumulate into one SharedContribution entry holding the sum, and the second
call adds no new entry to the inner dict of the payer. -/
theorem C7_shared_merge (cd : ChatData ℚ) (p : String) (a1 a2 : ℚ)
    (l1 l2 : List String) (h : l1.toFinset = l2.toFinset) :
    lookupFD (lookupD ((cd.update_expenditure p a1 (some l1)).update_expenditure
        p a2 (some l2)).shared_expenditure p []) l1 0 =
      lookupFD (lookupD cd.shared_expenditure p []) l1 0 + a1 + a2 ∧
    (lookupD ((cd.update_expenditure p a1 (some l1)).update_expenditure
        p a2 (some l2)).shared_expenditure p []).length =
      (lookupD (cd.update_expenditure p a1 (some l1)).shared_expenditure
        p []).length := by
  simp only [ChatData.update_expenditure, lookupD_setK_self]
  constructor
  · rw [lookupFD_setFD_congr _ l1 l2 _ _ h, lookupFD_setFD_congr _ l2 l1 _ _ h.symm]
  · exact length_setFD_setFD _ l1 l2 _ _ h

/-- C7 witness: add_shared A 10 [B, C] then add_shared A 5 [C, B] yield one
entry of payer A valued 0 + 10 + 5 and the inner dict does not grow on the
second call. -/
theorem C7_witness :
    lookupFD (lookupD ((ChatData.empty.update_expenditure "A" (10 : ℚ)
        (some ["B", "C"])).update_expenditure "A" (5 : ℚ)
        (some ["C", "B"])).shared_expenditure "A" []) ["B", "C"] 0 =
      lookupFD (lookupD (ChatData.empty : ChatData ℚ).shared_expenditure
        "A" []) ["B", "C"] 0 + 10 + 5 ∧
    (lookupD ((ChatData.empty.update_expenditure "A" (10 : ℚ)
        (some ["B", "C"])).update_expenditure "A" (5 : ℚ)
        (some ["C", "B"])).shared_expenditure "A" []).length =
      (lookupD (ChatData.empty.update_expenditure "A" (10 : ℚ)
        (some ["B", "C"])).shared_expenditure "A" []).length :=
  C7_shared_merge ChatData.empty "A" 10 5 ["B", "C"] ["C", "B"] (by decide)

/-- C8: the resolve command neither modifies the ledger state nor changes
its output when repeated: running res twice from any state returns the same
transaction list, and the post state of res is the input state. -/
theorem C8_resolve_idempotent (cd : ChatData ℚ) :
    (execCmd cd Cmd.res).1 = cd ∧
    (execCmd (execCmd cd Cmd.res).1 Cmd.res).2 = (execCmd cd Cmd.res).2 :=
  ⟨rfl, rfl⟩

/-- C9: every transaction returned by resolve_expenses has a strictly
positive amount: debtors enter the loop with negative original balance,
creditor remainders stay nonnegative, and a transfer happens only at a
nonzero creditor remainder, so min(-d0, remainder) is positive. -/
theorem C9_amounts_positive (cd : ChatData ℚ) (t : String × String × ℚ)
    (ht : t ∈ cd.resolve_expenses) : 0 < t.2.2 := by
  have hdeb : ∀ x ∈ cd.debtsAfterShared.filter (fun pe => pe.2 < 0), x.2 < 0 := by
    intro x hx
    exact of_decide_eq_true (List.mem_filter.mp hx).2
  have hcre : ∀ x ∈ cd.debtsAfterShared.filter (fun pe => 0 < pe.2), 0 ≤ x.2 := by
    intro x hx
    exact le_of_lt (of_decide_eq_true (List.mem_filter.mp hx).2)
  exact settleAll_amounts_pos _ _ hdeb hcre t ht

/-- C9 witness: on stateC9 (include [A,B]; add_equal A 30) the transaction
(B, A, 15) is returned and its amount is positive. -/
theorem C9_witness :
    ("B", "A", (15 : ℚ)) ∈ stateC9.resolve_expenses ∧
    (0 : ℚ) < ("B", "A", (15 : ℚ)).2.2 :=
  ⟨by with_unfolding_all decide,
    C9_amounts_positive stateC9 ("B", "A", 15) (by with_unfolding_all decide)⟩

/-- C10: remove p deletes the key p from the EqualContribution dict and the
key p as payer from the SharedContribution dict, leaves the participant list
unchanged and leaves the entry of every other payer q unchanged (so p stays
inside the sharer sets of the entries of other payers). -/
theorem C10_remove_frame (cd : ChatData ℚ) (p q : String)
    (he : (cd.expenditure.map Prod.fst).Nodup)
    (hs : (cd.shared_expenditure.map Prod.fst).Nodup)
    (hq : q ≠ p) :
    (cd.remove p).users = cd.users ∧
    lookup? (cd.remove p).expenditure p = none ∧
    lookup? (cd.remove p).expenditure q = lookup? cd.expenditure q ∧
    lookup? (cd.remove p).shared_expenditure p = none ∧
    lookup? (cd.remove p).shared_expenditure q = lookup? cd.shared_expenditure q :=
  ⟨rfl, removeDict_self_none cd.expenditure p he,
    removeDict_frame cd.expenditure p q hq,
    removeDict_self_none cd.shared_expenditure p hs,
    removeDict_frame cd.shared_expenditure p q hq⟩

/-- C10 witness: removing A from stateC10 clears the two entries keyed A,
keeps the participant list and keeps the entry of payer B, whose sharer
list still contains A. -/
theorem C10_witness :
    (stateC10.remove "A").users = stateC10.users ∧
    lookup? (stateC10.remove "A").expenditure "A" = none ∧
    lookup? (stateC10.remove "A").expenditure "B" =
      lookup? stateC10.expenditure "B" ∧
    lookup? (stateC10.remove "A").shared_expenditure "A" = none ∧
    lookup? (stateC10.remove "A").shared_expenditure "B" =
      lookup? stateC10.shared_expenditure "B" :=
  C10_remove_frame stateC10 "A" "B" (by decide) (by decide) (by decide)

end SplitLater
